import Mathlib

/-
Shallow embedding of the ASM-VM interpreter (src/src/vm.rs, src/src/scanner.rs,
src/src/token.rs) for a 32-bit x86 assembly subset, together with theorems
settling the specification claims.

Conventions of the embedding:
* Machine integers are modelled as Nat (unsigned) and Int (signed) with
  explicit reductions modulo 2^8, 2^16, 2^32, 2^64 where the Rust code
  truncates or wraps.  Unchecked Rust arithmetic (release profile) wraps,
  matching the wrap-around arithmetic stated by the specification.
* A Rust [u8; 4] register is identified with its little-endian u32 value;
  byte-slice reads and writes become getBytes / setBytes below.
* Rust panics (index out of bounds, error_report, division by zero,
  unwrap of Err) become Except.error.
* The eip advances by small positive constants (go_from_here(1), (2)) are
  modelled by Nat successor; they agree with the source for every
  instruction index below 2^31 - 2, and jump displacements (which can be
  negative) go through go_from_here, which models the i32 wrap and the
  failing conversion to u32 exactly.
-/

namespace ASM

/-- 2^32, the modulus of u32 arithmetic. -/
def U32MOD : Nat := 4294967296

/-- 2^64, the modulus of u64 arithmetic. -/
def U64MOD : Nat := 18446744073709551616

/-- Size of the stack and memory byte arrays (1 MiB, `MAX` in vm.rs). -/
def MAX : Nat := 1048576

/-- Wrapping u32 addition. -/
def add32 (a b : Nat) : Nat := (a + b) % U32MOD

/-- Wrapping u32 multiplication. -/
def mul32 (a b : Nat) : Nat := (a * b) % U32MOD

/-- Cast of a signed integer to u32 (twos-complement bit pattern). -/
def toU32 (v : Int) : Nat := (v % (U32MOD : Int)).toNat

/-- Wrapping u32 subtraction. -/
def sub32 (a b : Nat) : Nat := toU32 ((a : Int) - (b : Int))

/-- Cast of a signed integer to u64 (twos-complement bit pattern). -/
def toU64 (v : Int) : Nat := (v % (U64MOD : Int)).toNat

/-- Cast of a signed integer to u16 (twos-complement bit pattern). -/
def toU16 (v : Int) : Nat := (v % (65536 : Int)).toNat

/-- Reinterpretation of a u32 bit pattern as an i32 value. -/
def toI32 (n : Nat) : Int :=
  if n % U32MOD < 2147483648 then ((n % U32MOD : Nat) : Int)
  else ((n % U32MOD : Nat) : Int) - (U32MOD : Int)

/-- Reinterpretation of a u16 bit pattern as an i16 value. -/
def toI16 (n : Nat) : Int :=
  if n % 65536 < 32768 then ((n % 65536 : Nat) : Int)
  else ((n % 65536 : Nat) : Int) - (65536 : Int)

/-- Reinterpretation of a u64 bit pattern as an i64 value. -/
def toI64 (n : Nat) : Int :=
  if n % U64MOD < 9223372036854775808 then ((n % U64MOD : Nat) : Int)
  else ((n % U64MOD : Nat) : Int) - (U64MOD : Int)

/-- Wrapping i32 arithmetic: the result of an i32 operation computed in Int
and reduced to the representative in [-2^31, 2^31). -/
def wrapI32 (x : Int) : Int := toI32 (toU32 x)

/-- The overflow bit of i32 overflowing_add. -/
def signed_add_overflow (x y : Int) : Bool :=
  decide (x + y < -2147483648 ∨ x + y > 2147483647)

/-- The overflow bit of i32 overflowing_sub. -/
def signed_sub_overflow (x y : Int) : Bool :=
  decide (x - y < -2147483648 ∨ x - y > 2147483647)

/-- Wrapping u8 increment (the call-depth counter is a u8 in the source). -/
def add8 (n : Nat) : Nat := (n + 1) % 256

/-- Wrapping u8 decrement. -/
def sub8 (n : Nat) : Nat := (n + 255) % 256

/-- Read `size` little-endian bytes starting at byte offset `start` of a
container identified with its little-endian value, zero-extended; this is
VM::get_value on a byte slice of the container. -/
def getBytes (container start size : Nat) : Nat :=
  container / 2 ^ (8 * start) % 2 ^ (8 * size)

/-- Overwrite bytes [start, start+size) of the container with the low
`size` bytes of `v`; this is VM::set_value on a byte slice. -/
def setBytes (container start size v : Nat) : Nat :=
  container / 2 ^ (8 * (start + size)) * 2 ^ (8 * (start + size))
    + v % 2 ^ (8 * size) * 2 ^ (8 * start)
    + container % 2 ^ (8 * start)

/-- Point update of a byte array modelled as a function. -/
def updateByte (m : Nat → Nat) (a v : Nat) : Nat → Nat :=
  fun n => if n = a then v else m n

/-- Read `size` little-endian bytes of a byte array at address `addr`. -/
def readBytesLE (m : Nat → Nat) (addr : Nat) : Nat → Nat
  | 0 => 0
  | Nat.succ s => m addr % 256 + 256 * readBytesLE m (addr + 1) s

/-- Write the low `size` bytes of `v` little-endian at address `addr`. -/
def writeBytesLE (m : Nat → Nat) (addr : Nat) : Nat → Nat → (Nat → Nat)
  | 0, _ => m
  | Nat.succ s, v => writeBytesLE (updateByte m addr (v % 256)) (addr + 1) s (v / 256)

/-- TokenType from token.rs. -/
inductive TokenType where
  | INSTRUCTION
  | REGISTER
  | KEYWORD
  | SYMBOL
  | IMMEDIATE_DATA
  | LABEL
  | END_OF_FILE
deriving DecidableEq

/-- TokenValue from token.rs. -/
inductive TokenValue where
  | MOV | MOVZX | MOVSX | ADD | SUB | INC | DEC | MUL | IMUL | DIV | IDIV
  | AND | OR | XOR | NOT | NEG | SHL | SHR | SAR | PUSH | POP | CMP
  | JMP | JE | JNE | JG | JGE | JL | JLE | JA | JAE | JB | JBE
  | CALL | RET | ENTER | LEAVE | INT
  | EAX | AX | AH | AL | EBX | BX | BH | BL | ECX | CX | CH | CL
  | EDX | DX | DH | DL | ESI | SI | EDI | DI | ESP | SP | EBP | BP | EIP
  | PTR | BYTE | WORD | DWORD
  | PLUS | MINUS | TIMES | SEMICOLON | COMMA | LBRACK | RBRACK | COLON
  | INTEGER_LITERAL | LABEL | END_OF_FILE | UNKNOWN
deriving DecidableEq

/-- Token from token.rs (the source location is dropped: it only feeds
error messages). `int_value_` is the u32 payload, `symbol_precedence_`
the operator precedence of SYMBOL tokens. -/
structure Token where
  type_ : TokenType
  value_ : TokenValue
  name_ : String
  int_value_ : Nat
  symbol_precedence_ : Int
deriving DecidableEq

/-- Token.get_int_value: panics unless the token is IMMEDIATE_DATA. -/
def get_int_value (t : Token) : Except String Nat :=
  if t.type_ = TokenType.IMMEDIATE_DATA then Except.ok t.int_value_
  else Except.error "not an immediate data token"

/-- Token.get_precedence: panics unless the token is a SYMBOL. -/
def get_precedence (t : Token) : Except String Int :=
  if t.type_ = TokenType.SYMBOL then Except.ok t.symbol_precedence_
  else Except.error "not a symbol token"

/-- The keyword dictionary built by Scanner::new (scanner.rs lines 61-137),
verbatim.  Note that the mnemonic "int" is absent. -/
def scannerKeyword : String → Option (TokenType × TokenValue)
  | "mov" => some (TokenType.INSTRUCTION, TokenValue.MOV)
  | "movzx" => some (TokenType.INSTRUCTION, TokenValue.MOVZX)
  | "movsx" => some (TokenType.INSTRUCTION, TokenValue.MOVSX)
  | "add" => some (TokenType.INSTRUCTION, TokenValue.ADD)
  | "sub" => some (TokenType.INSTRUCTION, TokenValue.SUB)
  | "inc" => some (TokenType.INSTRUCTION, TokenValue.INC)
  | "dec" => some (TokenType.INSTRUCTION, TokenValue.DEC)
  | "mul" => some (TokenType.INSTRUCTION, TokenValue.MUL)
  | "imul" => some (TokenType.INSTRUCTION, TokenValue.IMUL)
  | "div" => some (TokenType.INSTRUCTION, TokenValue.DIV)
  | "idiv" => some (TokenType.INSTRUCTION, TokenValue.IDIV)
  | "and" => some (TokenType.INSTRUCTION, TokenValue.AND)
  | "or" => some (TokenType.INSTRUCTION, TokenValue.OR)
  | "xor" => some (TokenType.INSTRUCTION, TokenValue.XOR)
  | "not" => some (TokenType.INSTRUCTION, TokenValue.NOT)
  | "neg" => some (TokenType.INSTRUCTION, TokenValue.NEG)
  | "push" => some (TokenType.INSTRUCTION, TokenValue.PUSH)
  | "pop" => some (TokenType.INSTRUCTION, TokenValue.POP)
  | "shl" => some (TokenType.INSTRUCTION, TokenValue.SHL)
  | "sal" => some (TokenType.INSTRUCTION, TokenValue.SHL)
  | "shr" => some (TokenType.INSTRUCTION, TokenValue.SHR)
  | "sar" => some (TokenType.INSTRUCTION, TokenValue.SAR)
  | "cmp" => some (TokenType.INSTRUCTION, TokenValue.CMP)
  | "jmp" => some (TokenType.INSTRUCTION, TokenValue.JMP)
  | "je" => some (TokenType.INSTRUCTION, TokenValue.JE)
  | "jz" => some (TokenType.INSTRUCTION, TokenValue.JE)
  | "jne" => some (TokenType.INSTRUCTION, TokenValue.JNE)
  | "jnz" => some (TokenType.INSTRUCTION, TokenValue.JNE)
  | "jg" => some (TokenType.INSTRUCTION, TokenValue.JG)
  | "jnle" => some (TokenType.INSTRUCTION, TokenValue.JG)
  | "jge" => some (TokenType.INSTRUCTION, TokenValue.JGE)
  | "jnl" => some (TokenType.INSTRUCTION, TokenValue.JGE)
  | "jl" => some (TokenType.INSTRUCTION, TokenValue.JL)
  | "jnge" => some (TokenType.INSTRUCTION, TokenValue.JL)
  | "jle" => some (TokenType.INSTRUCTION, TokenValue.JLE)
  | "jng" => some (TokenType.INSTRUCTION, TokenValue.JLE)
  | "ja" => some (TokenType.INSTRUCTION, TokenValue.JA)
  | "jnbe" => some (TokenType.INSTRUCTION, TokenValue.JA)
  | "jae" => some (TokenType.INSTRUCTION, TokenValue.JAE)
  | "jnb" => some (TokenType.INSTRUCTION, TokenValue.JAE)
  | "jb" => some (TokenType.INSTRUCTION, TokenValue.JB)
  | "jnae" => some (TokenType.INSTRUCTION, TokenValue.JB)
  | "jbe" => some (TokenType.INSTRUCTION, TokenValue.JBE)
  | "jna" => some (TokenType.INSTRUCTION, TokenValue.JBE)
  | "call" => some (TokenType.INSTRUCTION, TokenValue.CALL)
  | "ret" => some (TokenType.INSTRUCTION, TokenValue.RET)
  | "enter" => some (TokenType.INSTRUCTION, TokenValue.ENTER)
  | "leave" => some (TokenType.INSTRUCTION, TokenValue.LEAVE)
  | "eax" => some (TokenType.REGISTER, TokenValue.EAX)
  | "ax" => some (TokenType.REGISTER, TokenValue.AX)
  | "ah" => some (TokenType.REGISTER, TokenValue.AH)
  | "al" => some (TokenType.REGISTER, TokenValue.AL)
  | "ebx" => some (TokenType.REGISTER, TokenValue.EBX)
  | "bx" => some (TokenType.REGISTER, TokenValue.BX)
  | "bh" => some (TokenType.REGISTER, TokenValue.BH)
  | "bl" => some (TokenType.REGISTER, TokenValue.BL)
  | "ecx" => some (TokenType.REGISTER, TokenValue.ECX)
  | "cx" => some (TokenType.REGISTER, TokenValue.CX)
  | "ch" => some (TokenType.REGISTER, TokenValue.CH)
  | "cl" => some (TokenType.REGISTER, TokenValue.CL)
  | "edx" => some (TokenType.REGISTER, TokenValue.EDX)
  | "dx" => some (TokenType.REGISTER, TokenValue.DX)
  | "dh" => some (TokenType.REGISTER, TokenValue.DH)
  | "dl" => some (TokenType.REGISTER, TokenValue.DL)
  | "esi" => some (TokenType.REGISTER, TokenValue.ESI)
  | "si" => some (TokenType.REGISTER, TokenValue.SI)
  | "edi" => some (TokenType.REGISTER, TokenValue.EDI)
  | "di" => some (TokenType.REGISTER, TokenValue.DI)
  | "esp" => some (TokenType.REGISTER, TokenValue.ESP)
  | "sp" => some (TokenType.REGISTER, TokenValue.SP)
  | "ebp" => some (TokenType.REGISTER, TokenValue.EBP)
  | "bp" => some (TokenType.REGISTER, TokenValue.BP)
  | "ptr" => some (TokenType.KEYWORD, TokenValue.PTR)
  | "byte" => some (TokenType.KEYWORD, TokenValue.BYTE)
  | "word" => some (TokenType.KEYWORD, TokenValue.WORD)
  | "dword" => some (TokenType.KEYWORD, TokenValue.DWORD)
  | _ => none

/-- Scanner::handle_identifier_state: the identifier spelling, already
lower-cased (the scanner calls to_lowercase before the lookup), is looked
up in the dictionary; unknown identifiers become LABEL tokens. -/
def identifierToken (lowerName : String) : TokenType × TokenValue :=
  match scannerKeyword lowerName with
  | some info => info
  | none => (TokenType.LABEL, TokenValue.LABEL)

/-- The eight general-purpose registers of the VM struct. -/
inductive RegName where
  | eax | ebx | ecx | edx | esi | edi | esp | ebp
deriving DecidableEq

/-- The four status flags cf, zf, sf, of of the VM struct. -/
structure Flags where
  cf : Bool
  zf : Bool
  sf : Bool
  of : Bool
deriving DecidableEq

/-- The VM state: instruction stream, program counter, register file
(each [u8; 4] register identified with its little-endian u32 value),
flags, the stack and memory byte arrays, and the call depth (u8). -/
structure VM where
  text : List Token
  eip : Nat
  gpr : RegName → Nat
  flags : Flags
  stack : Nat → Nat
  memory : Nat → Nat
  depth : Nat

/-- Point update of the register file. -/
def updReg (g : RegName → Nat) (r : RegName) (v : Nat) : RegName → Nat :=
  fun x => if x = r then v else g x

/-- Indexing self.text[i]; a Rust out-of-bounds index panics. -/
def tokenAt (st : VM) (e : Nat) : Except String Token :=
  match st.text.get? e with
  | some t => Except.ok t
  | none => Except.error "token index out of range"

/-- An operand triple (pointer, start, size): a register slice, a memory
slice, a stack slice, or a materialised immediate buffer ([u8; 4]
identified with its u32 value). -/
inductive Place where
  | reg (r : RegName) (start size : Nat)
  | mem (addr size : Nat)
  | stk (addr size : Nat)
  | imm (buf size : Nat)
deriving DecidableEq

/-- The byte size of an operand triple. -/
def Place.size : Place → Nat
  | Place.reg _ _ sz => sz
  | Place.mem _ sz => sz
  | Place.stk _ sz => sz
  | Place.imm _ sz => sz

/-- VM::get_value: read `size` little-endian bytes at the slice and
zero-extend to u32.  A slice that leaves the container is a Rust panic. -/
def get_value (st : VM) : Place → Except String Nat
  | Place.reg r s sz =>
      if s + sz ≤ 4 then Except.ok (getBytes (st.gpr r) s sz)
      else Except.error "register slice out of range"
  | Place.mem a sz =>
      if a + sz ≤ MAX then Except.ok (readBytesLE st.memory a sz)
      else Except.error "memory slice out of range"
  | Place.stk a sz =>
      if a + sz ≤ MAX then Except.ok (readBytesLE st.stack a sz)
      else Except.error "stack slice out of range"
  | Place.imm b sz =>
      if sz ≤ 4 then Except.ok (getBytes b 0 sz)
      else Except.error "immediate slice out of range"

/-- VM::set_value: write the low `size` bytes of the value at the slice.
Writing an immediate place mutates only its temporary buffer, which is
never read again, so the VM state is unchanged. -/
def set_value (st : VM) : Place → Nat → Except String VM
  | Place.reg r s sz, v =>
      if s + sz ≤ 4 then
        Except.ok { st with gpr := updReg st.gpr r (setBytes (st.gpr r) s sz v) }
      else Except.error "register slice out of range"
  | Place.mem a sz, v =>
      if a + sz ≤ MAX then
        Except.ok { st with memory := writeBytesLE st.memory a sz v }
      else Except.error "memory slice out of range"
  | Place.stk a sz, v =>
      if a + sz ≤ MAX then
        Except.ok { st with stack := writeBytesLE st.stack a sz v }
      else Except.error "stack slice out of range"
  | Place.imm _ _, _ => Except.ok st

/-- VM::expect_token_type: mismatch is a fatal error (error_report
panics); on match, optionally advance. -/
def expect_token_type (st : VM) (e : Nat) (tt : TokenType) (adv : Bool) :
    Except String Nat :=
  match tokenAt st e with
  | Except.error msg => Except.error msg
  | Except.ok t =>
      if t.type_ = tt then Except.ok (if adv then e + 1 else e)
      else Except.error "Expected a different token type"

/-- VM::expect_token_value. -/
def expect_token_value (st : VM) (e : Nat) (tv : TokenValue) (adv : Bool) :
    Except String Nat :=
  match tokenAt st e with
  | Except.error msg => Except.error msg
  | Except.ok t =>
      if t.value_ = tv then Except.ok (if adv then e + 1 else e)
      else Except.error "Expected a different token value"

/-- VM::validate_token_type: test, and consume on success when `adv`. -/
def validate_token_type (st : VM) (e : Nat) (tt : TokenType) (adv : Bool) :
    Except String (Bool × Nat) :=
  match tokenAt st e with
  | Except.error msg => Except.error msg
  | Except.ok t =>
      if t.type_ = tt then Except.ok (true, if adv then e + 1 else e)
      else Except.ok (false, e)

/-- VM::validate_token_value. -/
def validate_token_value (st : VM) (e : Nat) (tv : TokenValue) (adv : Bool) :
    Except String (Bool × Nat) :=
  match tokenAt st e with
  | Except.error msg => Except.error msg
  | Except.ok t =>
      if t.value_ = tv then Except.ok (true, if adv then e + 1 else e)
      else Except.ok (false, e)

/-- The register alias table of VM::parse_register (vm.rs lines 241-267):
token value to (register, byte offset, byte size). -/
def parse_register_value : TokenValue → Option (RegName × Nat × Nat)
  | TokenValue.EAX => some (RegName.eax, 0, 4)
  | TokenValue.AX => some (RegName.eax, 0, 2)
  | TokenValue.AH => some (RegName.eax, 1, 1)
  | TokenValue.AL => some (RegName.eax, 0, 1)
  | TokenValue.EBX => some (RegName.ebx, 0, 4)
  | TokenValue.BX => some (RegName.ebx, 0, 2)
  | TokenValue.BH => some (RegName.ebx, 1, 1)
  | TokenValue.BL => some (RegName.ebx, 0, 1)
  | TokenValue.ECX => some (RegName.ecx, 0, 4)
  | TokenValue.CX => some (RegName.ecx, 0, 2)
  | TokenValue.CH => some (RegName.ecx, 1, 1)
  | TokenValue.CL => some (RegName.ecx, 0, 1)
  | TokenValue.EDX => some (RegName.edx, 0, 4)
  | TokenValue.DX => some (RegName.edx, 0, 2)
  | TokenValue.DH => some (RegName.edx, 1, 1)
  | TokenValue.DL => some (RegName.edx, 0, 1)
  | TokenValue.ESI => some (RegName.esi, 0, 4)
  | TokenValue.SI => some (RegName.esi, 0, 2)
  | TokenValue.EDI => some (RegName.edi, 0, 4)
  | TokenValue.DI => some (RegName.edi, 0, 2)
  | TokenValue.ESP => some (RegName.esp, 0, 4)
  | TokenValue.SP => some (RegName.esp, 0, 2)
  | TokenValue.EBP => some (RegName.ebp, 0, 4)
  | TokenValue.BP => some (RegName.ebp, 0, 2)
  | _ => none

/-- VM::parse_register: consume one REGISTER token and produce its slice
triple; any other token value is the "Flag registers" error. -/
def parse_register (st : VM) (e : Nat) : Except String (Place × Nat) :=
  match tokenAt st e with
  | Except.error msg => Except.error msg
  | Except.ok t =>
      match parse_register_value t.value_ with
      | some (r, s, sz) => Except.ok (Place.reg r s sz, e + 1)
      | none => Except.error "Flag registers can not be used as source!"

/-- VM::parse_immediate_data: optional leading minus, then an immediate
token; the size is inferred from the signed value and the 32-bit
twos-complement pattern is materialised in a 4-byte buffer. -/
def parse_immediate_data (st : VM) (e : Nat) :
    Except String ((Nat × Nat) × Nat) :=
  match validate_token_value st e TokenValue.MINUS true with
  | Except.error msg => Except.error msg
  | Except.ok (sign, e) =>
      match tokenAt st e with
      | Except.error msg => Except.error msg
      | Except.ok t =>
          match get_int_value t with
          | Except.error msg => Except.error msg
          | Except.ok n =>
              let e := e + 1
              let value : Int := if sign then -(n : Int) else (n : Int)
              if 0 ≤ value then
                if value ≤ 255 then Except.ok ((toU32 value, 1), e)
                else if value ≤ 65535 then Except.ok ((toU32 value, 2), e)
                else if value ≤ 4294967295 then Except.ok ((toU32 value, 4), e)
                else Except.error "Integer literal is too big!"
              else
                if -128 ≤ value then Except.ok ((toU32 value, 1), e)
                else if -32768 ≤ value then Except.ok ((toU32 value, 2), e)
                else if -2147483648 ≤ value then Except.ok ((toU32 value, 4), e)
                else Except.error "Integer literal is too small!"

/-- VM::parse_binary_operation (vm.rs lines 330-370), the
precedence-climbing loop, with explicit fuel for the loop and the
climbing recursion.  The loop state is (eip, result); note that each
iteration recomputes `result` from the original `lhs` argument, exactly
as the source does (the accumulated `result` of the previous iteration
is discarded). -/
def parse_binary_operation (st : VM) :
    Nat → Nat → Nat → Nat → Int → Except String (Nat × Nat)
  | 0, _, _, _, _ => Except.error "out of fuel"
  | Nat.succ fuel, e, lhs, result, precedence =>
    match tokenAt st e with
    | Except.error msg => Except.error msg
    | Except.ok t =>
      match get_precedence t with
      | Except.error msg => Except.error msg
      | Except.ok currentPrecedence =>
        if currentPrecedence < precedence then Except.ok (result, e)
        else
          let operation := t.value_
          let e := e + 1
          match tokenAt st e with
          | Except.error msg => Except.error msg
          | Except.ok t2 =>
            let rhsStep : Except String (Nat × Nat) :=
              match t2.type_ with
              | TokenType.REGISTER =>
                  match parse_register st e with
                  | Except.error msg => Except.error msg
                  | Except.ok (p, e2) =>
                      match get_value st p with
                      | Except.error msg => Except.error msg
                      | Except.ok v => Except.ok (v, e2)
              | TokenType.IMMEDIATE_DATA => Except.ok (t2.int_value_, e + 1)
              | _ => Except.error "Unexpected token"
            match rhsStep with
            | Except.error msg => Except.error msg
            | Except.ok (rhs, e) =>
              match tokenAt st e with
              | Except.error msg => Except.error msg
              | Except.ok t3 =>
                match get_precedence t3 with
                | Except.error msg => Except.error msg
                | Except.ok nextPrecedence =>
                  let climb : Except String (Nat × Nat) :=
                    if currentPrecedence < nextPrecedence then
                      parse_binary_operation st fuel e rhs rhs (currentPrecedence + 1)
                    else Except.ok (rhs, e)
                  match climb with
                  | Except.error msg => Except.error msg
                  | Except.ok (rhs, e) =>
                    let result :=
                      match operation with
                      | TokenValue.PLUS => add32 lhs rhs
                      | TokenValue.MINUS => sub32 lhs rhs
                      | TokenValue.TIMES => mul32 lhs rhs
                      | _ => 4294967295
                    parse_binary_operation st fuel e lhs result precedence

/-- VM::parse_address: one atom (register value, immediate, or
minus-negated immediate), then the binary-operation loop from
precedence 0; the u32 result is the memory address. -/
def parse_address (st : VM) (fuel e : Nat) : Except String (Nat × Nat) :=
  match tokenAt st e with
  | Except.error msg => Except.error msg
  | Except.ok t =>
    let atom : Except String (Nat × Nat) :=
      match t.type_ with
      | TokenType.REGISTER =>
          match parse_register st e with
          | Except.error msg => Except.error msg
          | Except.ok (p, e2) =>
              match get_value st p with
              | Except.error msg => Except.error msg
              | Except.ok v => Except.ok (v, e2)
      | TokenType.IMMEDIATE_DATA => Except.ok (t.int_value_, e + 1)
      | _ =>
          if t.value_ = TokenValue.MINUS then
            match tokenAt st (e + 1) with
            | Except.error msg => Except.error msg
            | Except.ok t2 =>
                match get_int_value t2 with
                | Except.error msg => Except.error msg
                | Except.ok v => Except.ok (toU32 (-(v : Int)), e + 2)
          else Except.error "Unexpected token"
    match atom with
    | Except.error msg => Except.error msg
    | Except.ok (lhs, e) => parse_binary_operation st fuel e lhs lhs 0

/-- VM::parse_memory: SIZE PTR [ addr ]. -/
def parse_memory (st : VM) (fuel e : Nat) : Except String (Place × Nat) :=
  match tokenAt st e with
  | Except.error msg => Except.error msg
  | Except.ok t =>
    let size : Nat :=
      match t.value_ with
      | TokenValue.BYTE => 1
      | TokenValue.WORD => 2
      | TokenValue.DWORD => 4
      | _ => 0
    let e := e + 1
    match expect_token_value st e TokenValue.PTR true with
    | Except.error msg => Except.error msg
    | Except.ok e =>
      match expect_token_value st e TokenValue.LBRACK true with
      | Except.error msg => Except.error msg
      | Except.ok e =>
        match parse_address st fuel e with
        | Except.error msg => Except.error msg
        | Except.ok (addr, e) =>
          match expect_token_value st e TokenValue.RBRACK true with
          | Except.error msg => Except.error msg
          | Except.ok e => Except.ok (Place.mem addr size, e)

/-- Fuel used by the instruction handlers for the address-expression
parser; large enough for any terminating parse. -/
def addressFuel : Nat := 1000000000

/-- VM::parse_source: memory, register or immediate operand. -/
def parse_source (st : VM) (e : Nat) : Except String (Place × Nat) :=
  match tokenAt st e with
  | Except.error msg => Except.error msg
  | Except.ok t =>
    match t.value_ with
    | TokenValue.BYTE => parse_memory st addressFuel e
    | TokenValue.WORD => parse_memory st addressFuel e
    | TokenValue.DWORD => parse_memory st addressFuel e
    | _ =>
      if t.type_ = TokenType.REGISTER then parse_register st e
      else if t.type_ = TokenType.IMMEDIATE_DATA ∨ t.value_ = TokenValue.MINUS then
        match parse_immediate_data st e with
        | Except.error msg => Except.error msg
        | Except.ok ((b, sz), e2) => Except.ok (Place.imm b sz, e2)
      else Except.error "Unexpected token"

/-- VM::parse_destination: memory or register operand only. -/
def parse_destination (st : VM) (e : Nat) : Except String (Place × Nat) :=
  match tokenAt st e with
  | Except.error msg => Except.error msg
  | Except.ok t =>
    match t.value_ with
    | TokenValue.BYTE => parse_memory st addressFuel e
    | TokenValue.WORD => parse_memory st addressFuel e
    | TokenValue.DWORD => parse_memory st addressFuel e
    | _ =>
      if t.type_ = TokenType.REGISTER then parse_register st e
      else Except.error "Unexpected token"

/-- VM::set_cf_and_of (vm.rs lines 615-640): for sub-dword sizes, CF is
set (never cleared) when the full u32 result leaves the unsigned range of
the size, and OF is set when its i32 reinterpretation leaves the signed
range; a dword size leaves both untouched, any other size panics. -/
def set_cf_and_of (result size : Nat) (f : Flags) : Except String Flags :=
  let tmp := toI32 result
  match size with
  | 1 => Except.ok { f with
      cf := f.cf || decide (result > 255),
      of := f.of || decide (tmp < -128 ∨ tmp > 127) }
  | 2 => Except.ok { f with
      cf := f.cf || decide (result > 65535),
      of := f.of || decide (tmp < -32768 ∨ tmp > 32767) }
  | 4 => Except.ok f
  | _ => Except.error "Invaild length"

/-- VM::set_sf_and_zf: SF and ZF from the sign of the full u32 result
reinterpreted as i32. -/
def set_sf_and_zf (result : Nat) (f : Flags) : Flags :=
  let tmp := toI32 result
  if 0 < tmp then { f with sf := false, zf := false }
  else if tmp = 0 then { f with sf := false, zf := true }
  else { f with sf := true, zf := false }

/-- The arithmetic and flag core of VM::binary_operation (vm.rs lines
688-724) on operand values `a`, `b` read at the destination size.  The
SUB arm computes OF with overflowing_add of the operands, exactly as
vm.rs line 700 does. -/
def binary_operation_core (v : TokenValue) (a b size : Nat) (f : Flags) :
    Except String (Nat × Flags) :=
  let step : Except String (Nat × Flags) :=
    match v with
    | TokenValue.ADD =>
        let result := add32 a b
        let f := { f with
          cf := decide (a + b ≥ U32MOD),
          of := signed_add_overflow (toI32 a) (toI32 b) }
        match set_cf_and_of result size f with
        | Except.error msg => Except.error msg
        | Except.ok f => Except.ok (result, f)
    | TokenValue.SUB =>
        let result := sub32 a b
        let f := { f with
          cf := decide (a < b),
          of := signed_add_overflow (toI32 a) (toI32 b) }
        match set_cf_and_of result size f with
        | Except.error msg => Except.error msg
        | Except.ok f => Except.ok (result, f)
    | TokenValue.AND => Except.ok (Nat.land a b, { f with cf := false, of := false })
    | TokenValue.OR => Except.ok (Nat.lor a b, { f with cf := false, of := false })
    | TokenValue.XOR => Except.ok (Nat.xor a b, { f with cf := false, of := false })
    | _ => Except.error "Unexpected instruction"
  match step with
  | Except.error msg => Except.error msg
  | Except.ok (result, f) => Except.ok (result, set_sf_and_zf result f)

/-- The arithmetic and flag core of VM::unary_operation (vm.rs lines
951-978) on the operand value read at the destination size. -/
def unary_operation_core (v : TokenValue) (operand size : Nat) (f : Flags) :
    Except String (Nat × Flags) :=
  let step : Except String (Nat × Flags) :=
    match v with
    | TokenValue.INC =>
        let result := add32 operand 1
        let f := { f with of := signed_add_overflow (toI32 operand) 1 }
        match set_cf_and_of result size f with
        | Except.error msg => Except.error msg
        | Except.ok f => Except.ok (result, f)
    | TokenValue.DEC =>
        let result := sub32 operand 1
        let f := { f with of := signed_sub_overflow (toI32 operand) 1 }
        match set_cf_and_of result size f with
        | Except.error msg => Except.error msg
        | Except.ok f => Except.ok (result, f)
    | TokenValue.NOT => Except.ok (U32MOD - 1 - operand % U32MOD, f)
    | TokenValue.NEG =>
        Except.ok (toU32 (-(operand : Int)), { f with cf := decide (operand ≠ 0) })
    | _ => Except.error "Unexpected instruction"
  match step with
  | Except.error msg => Except.error msg
  | Except.ok (result, f) => Except.ok (result, set_sf_and_zf result f)

/-- The arithmetic and flag core of VM::bitshift (vm.rs lines 997-1025):
the operand is the u32 value widened to u64, the count an immediate
(shift amounts are taken modulo 64 by wrapping_shl/shr).  SHR takes CF
from bit 0 of the shifted result, exactly as vm.rs line 1010 does. -/
def bitshift_core (v : TokenValue) (operand count size : Nat) (f : Flags) :
    Nat × Flags :=
  let step : Nat × Flags :=
    match v with
    | TokenValue.SHL =>
        let result := operand * 2 ^ (count % 64) % U64MOD
        let cf := Nat.testBit result (8 * size)
        (result, { f with
          cf := cf,
          of := Bool.xor (Nat.testBit result (8 * size - 1)) cf })
    | TokenValue.SHR =>
        let result := operand / 2 ^ (count % 64)
        (result, { f with
          cf := Nat.testBit result 0,
          of := decide (operand ≥ 2 ^ (8 * size - 1)) })
    | TokenValue.SAR =>
        let tmp : Int := toI32 operand
        let result := toU64 (Int.fdiv tmp (2 ^ (count % 64)))
        (result, { f with cf := Nat.testBit result 0, of := false })
    | _ => (U64MOD - 1, { f with cf := false })
  (step.1, set_sf_and_zf (step.1 % U32MOD) step.2)

/-- VM::mov: decode the destination, a comma, then either an immediate
(whose full 4-byte buffer is read back as the value, and whose inferred
size may not exceed the destination size) or a register/memory source
(whose size must match exactly).  Flags are not touched. -/
def mov (st : VM) : Except String VM :=
  match parse_destination st (st.eip + 1) with
  | Except.error msg => Except.error msg
  | Except.ok (destination, e) =>
    match expect_token_value st e TokenValue.COMMA true with
    | Except.error msg => Except.error msg
    | Except.ok e =>
      match tokenAt st e with
      | Except.error msg => Except.error msg
      | Except.ok t =>
        if t.type_ = TokenType.IMMEDIATE_DATA ∨ t.value_ = TokenValue.MINUS then
          match parse_immediate_data st e with
          | Except.error msg => Except.error msg
          | Except.ok ((buf, dsz), e) =>
            if destination.size < dsz then
              Except.error "destination smaller than source"
            else
              match set_value st destination buf with
              | Except.error msg => Except.error msg
              | Except.ok st2 => Except.ok { st2 with eip := e }
        else
          match parse_source st e with
          | Except.error msg => Except.error msg
          | Except.ok (source, e) =>
            if destination.size ≠ source.size then
              Except.error "destination size differs from source size"
            else
              match get_value st source with
              | Except.error msg => Except.error msg
              | Except.ok v =>
                match set_value st destination v with
                | Except.error msg => Except.error msg
                | Except.ok st2 => Except.ok { st2 with eip := e }

/-- VM::movsx: sign-extend a smaller register/memory source into a larger
register destination. -/
def movsx (st : VM) : Except String VM := do
  let e := st.eip + 1
  let e ← expect_token_type st e TokenType.REGISTER false
  let (destination, e) ← parse_register st e
  let e ← expect_token_value st e TokenValue.COMMA true
  let t ← tokenAt st e
  if t.type_ ≠ TokenType.REGISTER ∧ t.value_ ≠ TokenValue.BYTE ∧
      t.value_ ≠ TokenValue.WORD ∧ t.value_ ≠ TokenValue.DWORD then
    Except.ok { st with eip := e }
  else do
    let (source, e) ← parse_source st e
    if destination.size ≤ source.size then
      Except.error "destination not larger than source"
    else do
      let v ← get_value st source
      let filled :=
        if getBytes v (source.size - 1) 1 ≥ 128 then
          v + (U32MOD - 2 ^ (8 * source.size))
        else v
      let st2 ← set_value st destination filled
      Except.ok { st2 with eip := e }

/-- VM::movzx: zero-extend a smaller register/memory source into a larger
register destination. -/
def movzx (st : VM) : Except String VM := do
  let e := st.eip + 1
  let e ← expect_token_type st e TokenType.REGISTER false
  let (destination, e) ← parse_register st e
  let e ← expect_token_value st e TokenValue.COMMA true
  let t ← tokenAt st e
  if t.type_ ≠ TokenType.REGISTER ∧ t.value_ ≠ TokenValue.BYTE ∧
      t.value_ ≠ TokenValue.WORD ∧ t.value_ ≠ TokenValue.DWORD then
    Except.ok { st with eip := e }
  else do
    let (source, e) ← parse_source st e
    if destination.size ≤ source.size then
      Except.error "destination not larger than source"
    else do
      let v ← get_value st source
      let st2 ← set_value st destination v
      Except.ok { st2 with eip := e }

/-- VM::binary_operation dispatcher for add, sub, and, or, xor. -/
def binary_operation (st : VM) : Except String VM := do
  let t ← tokenAt st st.eip
  let e := st.eip + 1
  let (destination, e) ← parse_destination st e
  let e ← expect_token_value st e TokenValue.COMMA true
  let (source, e) ← parse_source st e
  if source.size ≠ 0 ∧ destination.size < source.size then
    Except.error "destination smaller than source"
  else do
    let a ← get_value st destination
    let b ← get_value st source
    let (result, f) ← binary_operation_core t.value_ a b destination.size st.flags
    let st2 ← set_value st destination result
    Except.ok { st2 with flags := f, eip := e }

/-- VM::mul: unsigned multiply of the accumulator by the operand. -/
def mul (st : VM) : Except String VM := do
  let e := st.eip + 1
  let (multiplier, e) ← parse_destination st e
  match multiplier.size with
  | 1 => do
    let mv ← get_value st multiplier
    let multiplicand := getBytes (st.gpr RegName.eax) 0 1
    let result := mul32 multiplicand mv
    let st2 ← set_value st (Place.reg RegName.eax 0 2) result
    let f := { st.flags with
      cf := decide (result > 255), of := decide (result > 255) }
    Except.ok { st2 with flags := set_sf_and_zf result f, eip := e }
  | 2 => do
    let mv ← get_value st multiplier
    let multiplicand := getBytes (st.gpr RegName.eax) 0 2
    let result := mul32 multiplicand mv
    let st2 ← set_value st (Place.reg RegName.eax 0 2) result
    let st3 ← set_value st2 (Place.reg RegName.edx 0 2) (result / 65536)
    let f := { st.flags with
      cf := decide (result ≥ 65536), of := decide (result ≥ 65536) }
    Except.ok { st3 with flags := set_sf_and_zf result f, eip := e }
  | 4 => do
    let mv ← get_value st multiplier
    let multiplicand := getBytes (st.gpr RegName.eax) 0 4
    let result := multiplicand * mv % U64MOD
    let st2 ← set_value st (Place.reg RegName.eax 0 4) (result % U32MOD)
    let st3 ← set_value st2 (Place.reg RegName.edx 0 4) (result / U32MOD)
    let f := { st.flags with
      cf := decide (result ≥ U32MOD), of := decide (result ≥ U32MOD),
      sf := decide (result ≥ 9223372036854775808), zf := decide (result = 0) }
    Except.ok { st3 with flags := f, eip := e }
  | _ => Except.ok { st with eip := e }

/-- VM::imul: two- or three-operand signed multiply (computed with u32
overflowing_mul in the source). -/
def imul (st : VM) : Except String VM := do
  let e := st.eip + 1
  let e ← expect_token_type st e TokenType.REGISTER false
  let (destination, e) ← parse_register st e
  let e ← expect_token_value st e TokenValue.COMMA true
  let (first, e) ← parse_destination st e
  let (hasComma, e) ← validate_token_value st e TokenValue.COMMA true
  if hasComma then do
    let t ← tokenAt st e
    if t.type_ ≠ TokenType.IMMEDIATE_DATA then
      Except.ok { st with eip := e }
    else do
      let second := t.int_value_
      let e := e + 1
      let fv ← get_value st first
      let result := mul32 fv second
      let f := { st.flags with cf := decide (fv * second ≥ U32MOD) }
      let st2 ← set_value st destination result
      Except.ok { st2 with flags := f, eip := e }
  else do
    let dv ← get_value st destination
    let fv ← get_value st first
    let result := mul32 dv fv
    let f := { st.flags with cf := decide (dv * fv ≥ U32MOD) }
    let st2 ← set_value st destination result
    Except.ok { st2 with flags := f, eip := e }

/-- VM::div (vm.rs lines 860-938), entered for both div and idiv.  The
function tests the current token against the MUL value (and would only
then consume it), so the mnemonic DIV or IDIV is never consumed and
parse_destination is applied to the mnemonic itself.  The arithmetic
arms, kept faithful to the source, place the size-1 remainder in DH
(edx byte 1). -/
def div (st : VM) : Except String VM := do
  let (is_unsigned, e) ← validate_token_value st st.eip TokenValue.MUL true
  let (divisor, e) ← parse_destination st e
  match divisor.size with
  | 1 => do
    let dv ← get_value st divisor
    let dividend := getBytes (st.gpr RegName.eax) 0 2
    if dv % 65536 = 0 then Except.error "attempt to divide by zero"
    else do
      let quotient :=
        if is_unsigned then dividend / (dv % 65536)
        else toU16 (Int.tdiv (toI16 dividend) (toI16 dv))
      let remainder :=
        if is_unsigned then dividend % (dv % 65536)
        else toU16 (Int.tmod (toI16 dividend) (toI16 dv))
      let st2 ← set_value st (Place.reg RegName.eax 0 1) quotient
      let st3 ← set_value st2 (Place.reg RegName.edx 1 1) remainder
      Except.ok { st3 with eip := e }
  | 2 => do
    let dv ← get_value st divisor
    let dividend :=
      getBytes (st.gpr RegName.eax) 0 2 + getBytes (st.gpr RegName.edx) 0 2 * 65536
    if dv = 0 then Except.error "attempt to divide by zero"
    else do
      let quotient :=
        if is_unsigned then dividend / dv
        else toU32 (Int.tdiv (toI32 dividend) (toI32 dv))
      let remainder :=
        if is_unsigned then dividend % dv
        else toU32 (Int.tmod (toI32 dividend) (toI32 dv))
      let st2 ← set_value st (Place.reg RegName.eax 0 2) quotient
      let st3 ← set_value st2 (Place.reg RegName.edx 0 2) remainder
      Except.ok { st3 with eip := e }
  | 4 => do
    let dv ← get_value st divisor
    let dividend :=
      getBytes (st.gpr RegName.eax) 0 4 + getBytes (st.gpr RegName.edx) 0 4 * U32MOD
    if dv = 0 then Except.error "attempt to divide by zero"
    else do
      let quotient :=
        if is_unsigned then dividend / dv
        else toU64 (Int.tdiv (toI64 dividend) ((dv : Int)))
      let remainder :=
        if is_unsigned then dividend % dv
        else toU64 (Int.tmod (toI64 dividend) ((dv : Int)))
      let st2 ← set_value st (Place.reg RegName.eax 0 4) (quotient % U32MOD)
      let st3 ← set_value st2 (Place.reg RegName.edx 0 4) (remainder % U32MOD)
      Except.ok { st3 with eip := e }
  | _ => Except.ok { st with eip := e }

/-- VM::unary_operation dispatcher for inc, dec, not, neg. -/
def unary_operation (st : VM) : Except String VM := do
  let t ← tokenAt st st.eip
  let e := st.eip + 1
  let (destination, e) ← parse_destination st e
  let operand ← get_value st destination
  let (result, f) ← unary_operation_core t.value_ operand destination.size st.flags
  let st2 ← set_value st destination result
  Except.ok { st2 with flags := f, eip := e }

/-- VM::bitshift dispatcher for shl, shr, sar. -/
def bitshift (st : VM) : Except String VM := do
  let t ← tokenAt st st.eip
  let e := st.eip + 1
  let (destination, e) ← parse_destination st e
  let e ← expect_token_value st e TokenValue.COMMA true
  let e ← expect_token_type st e TokenType.IMMEDIATE_DATA false
  let operand ← get_value st destination
  let t2 ← tokenAt st e
  let count ← get_int_value t2
  let e := e + 1
  let (result, f) := bitshift_core t.value_ operand count destination.size st.flags
  let st2 ← set_value st destination (result % U32MOD)
  Except.ok { st2 with flags := f, eip := e }

/-- VM::push: decrement esp by the operand size (wrapping u32), then
write the operand value at stack[esp].  The value is read after the esp
update, as the source does (it matters when the source is esp). -/
def push (st : VM) : Except String VM := do
  let e := st.eip + 1
  let (source, e) ← parse_source st e
  let esp0 := getBytes (st.gpr RegName.esp) 0 4
  let new_esp := sub32 esp0 source.size
  let st2 ← set_value st (Place.reg RegName.esp 0 4) new_esp
  let v ← get_value st2 source
  let st3 ← set_value st2 (Place.stk new_esp source.size) v
  Except.ok { st3 with eip := e }

/-- VM::pop: read the operand size at stack[esp] into the destination,
then increment esp (read back after the destination write). -/
def pop (st : VM) : Except String VM := do
  let e := st.eip + 1
  let (destination, e) ← parse_destination st e
  let esp0 := getBytes (st.gpr RegName.esp) 0 4
  let v ← get_value st (Place.stk esp0 destination.size)
  let st2 ← set_value st destination v
  let esp1 := getBytes (st2.gpr RegName.esp) 0 4
  let st3 ← set_value st2 (Place.reg RegName.esp 0 4) (add32 esp1 destination.size)
  Except.ok { st3 with eip := e }

/-- Sign extension used by VM::cmp (and movsx): the value of a place of
the given size, with the high bytes of the 4-byte buffer filled with 0xFF
when the top byte of the place is at least 128, reinterpreted as i32. -/
def sign_extend_i32 (v sz : Nat) : Int :=
  toI32 (v + (if getBytes v (sz - 1) 1 ≥ 128 then U32MOD - 2 ^ (8 * sz) else 0))

/-- VM::cmp (vm.rs lines 1076-1128): CF and ZF from the unsigned
comparison of the zero-extended values, SF from the signed comparison of
the sign-extended values, and OF from the formula of line 1127 computed
in wrapping i32 arithmetic. -/
def cmp (st : VM) : Except String VM := do
  let e := st.eip + 1
  let (destination, e) ← parse_destination st e
  let first ← get_value st destination
  let e ← expect_token_value st e TokenValue.COMMA true
  let (source, e) ← parse_source st e
  let second ← get_value st source
  let f := st.flags
  let f :=
    if first > second then { f with cf := false, zf := false }
    else if first = second then { f with cf := false, zf := true }
    else { f with cf := true, zf := false }
  let sfirst := sign_extend_i32 first destination.size
  let ssecond := sign_extend_i32 second source.size
  let f := { f with sf := decide (sfirst < ssecond) }
  let tmp := wrapI32 (sfirst - ssecond)
  let f := { f with
    of := decide (wrapI32 (sfirst * ssecond) ≤ 0 ∧ wrapI32 (tmp * ssecond) > 0) }
  Except.ok { st with flags := f, eip := e }

/-- VM::go_from_here for a displacement: eip is cast to i32, the
displacement added with i32 wrap-around, and the result converted back
to u32; a negative result is the fatal Invaild-memory-address panic. -/
def go_from_here (st : VM) (e : Nat) (displacement : Int) : Except String VM :=
  let value := wrapI32 (toI32 e + displacement)
  if 0 ≤ value then Except.ok { st with eip := value.toNat }
  else Except.error "Invaild memory address"

/-- The take-branch condition of each arm of VM::jump; every value that
is not a jump mnemonic falls to the silent default arm. -/
def branch_taken (v : TokenValue) (f : Flags) : Bool :=
  match v with
  | TokenValue.JMP => true
  | TokenValue.JE => f.zf
  | TokenValue.JNE => !f.zf
  | TokenValue.JG => !f.zf && (f.sf == f.of)
  | TokenValue.JGE => f.sf == f.of
  | TokenValue.JL => f.sf != f.of
  | TokenValue.JLE => f.zf || (f.sf != f.of)
  | TokenValue.JA => !f.cf && !f.zf
  | TokenValue.JAE => !f.cf
  | TokenValue.JB => f.cf
  | TokenValue.JBE => f.cf || f.zf
  | _ => false

/-- VM::jump: consume the mnemonic, require an IMMEDIATE_DATA
displacement, consume it, and add the displacement to eip when the
condition of the mnemonic holds. -/
def jump (st : VM) : Except String VM :=
  match tokenAt st st.eip with
  | Except.error msg => Except.error msg
  | Except.ok t =>
    match expect_token_type st (st.eip + 1) TokenType.IMMEDIATE_DATA false with
    | Except.error msg => Except.error msg
    | Except.ok e =>
      match tokenAt st e with
      | Except.error msg => Except.error msg
      | Except.ok t2 =>
        match get_int_value t2 with
        | Except.error msg => Except.error msg
        | Except.ok d =>
          let displacement := toI32 d
          let e := e + 1
          if branch_taken t.value_ st.flags then go_from_here st e displacement
          else Except.ok { st with eip := e }

/-- VM::call: require an IMMEDIATE_DATA displacement, push the 4-byte
return address (the eip after the operand), increment the call depth
(u8), and jump by the displacement. -/
def call (st : VM) : Except String VM := do
  let e ← expect_token_type st (st.eip + 1) TokenType.IMMEDIATE_DATA false
  let t2 ← tokenAt st e
  let d ← get_int_value t2
  let displacement := toI32 d
  let e := e + 1
  let esp0 := getBytes (st.gpr RegName.esp) 0 4
  let new_esp := sub32 esp0 4
  let st2 ← set_value st (Place.reg RegName.esp 0 4) new_esp
  let st3 ← set_value st2 (Place.stk new_esp 4) e
  let st4 := { st3 with depth := add8 st3.depth }
  go_from_here st4 e displacement

/-- VM::ret (vm.rs lines 1226-1241): advance past the mnemonic; only
when the call depth exceeds 1, pop the 4-byte return address into eip
and increment esp; in every case decrement the call depth (u8). -/
def ret (st : VM) : Except String VM :=
  if st.depth > 1 then
    let esp0 := getBytes (st.gpr RegName.esp) 0 4
    match get_value st (Place.stk esp0 4) with
    | Except.error msg => Except.error msg
    | Except.ok v =>
      match set_value st (Place.reg RegName.esp 0 4) (add32 esp0 4) with
      | Except.error msg => Except.error msg
      | Except.ok st2 => Except.ok { st2 with eip := v, depth := sub8 st2.depth }
  else
    Except.ok { st with eip := st.eip + 1, depth := sub8 st.depth }

/-- VM::enter: push ebp, then copy esp into ebp. -/
def enter (st : VM) : Except String VM := do
  let e := st.eip + 1
  let esp0 := getBytes (st.gpr RegName.esp) 0 4
  let new_esp := sub32 esp0 4
  let st2 ← set_value st (Place.reg RegName.esp 0 4) new_esp
  let ebp0 := getBytes (st2.gpr RegName.ebp) 0 4
  let st3 ← set_value st2 (Place.stk new_esp 4) ebp0
  let st4 := { st3 with gpr := updReg st3.gpr RegName.ebp (st3.gpr RegName.esp) }
  Except.ok { st4 with eip := e }

/-- VM::leave: copy ebp into esp, pop ebp. -/
def leave (st : VM) : Except String VM := do
  let e := st.eip + 1
  let st1 := { st with gpr := updReg st.gpr RegName.esp (st.gpr RegName.ebp) }
  let esp0 := getBytes (st1.gpr RegName.esp) 0 4
  let v ← get_value st1 (Place.stk esp0 4)
  let st2 ← set_value st1 (Place.reg RegName.ebp 0 4) v
  let st3 ← set_value st2 (Place.reg RegName.esp 0 4) (add32 esp0 4)
  Except.ok { st3 with eip := e }

/-- One outcome of one iteration of the dispatch loop of VM::run. -/
inductive StepResult where
  | halted (st : VM)
  | next (st : VM)

/-- The depth test at the end of each iteration of the dispatch loop:
when the call depth reached 0, the loop breaks. -/
def after_instruction (st : VM) : StepResult :=
  if st.depth = 0 then StepResult.halted st else StepResult.next st

/-- One iteration of the dispatch loop of VM::run (vm.rs lines
1305-1342): the token at eip selects a handler; an INSTRUCTION token
with the INT value breaks out of the loop immediately; a LABEL token
skips itself and its colon. -/
def stepRun (st : VM) : Except String StepResult :=
  match tokenAt st st.eip with
  | Except.error msg => Except.error msg
  | Except.ok t =>
    match t.type_ with
    | TokenType.INSTRUCTION =>
      match t.value_ with
      | TokenValue.MOV => Except.map after_instruction (mov st)
      | TokenValue.MOVSX => Except.map after_instruction (movsx st)
      | TokenValue.MOVZX => Except.map after_instruction (movzx st)
      | TokenValue.ADD => Except.map after_instruction (binary_operation st)
      | TokenValue.SUB => Except.map after_instruction (binary_operation st)
      | TokenValue.AND => Except.map after_instruction (binary_operation st)
      | TokenValue.OR => Except.map after_instruction (binary_operation st)
      | TokenValue.XOR => Except.map after_instruction (binary_operation st)
      | TokenValue.MUL => Except.map after_instruction (mul st)
      | TokenValue.IMUL => Except.map after_instruction (imul st)
      | TokenValue.DIV => Except.map after_instruction (div st)
      | TokenValue.IDIV => Except.map after_instruction (div st)
      | TokenValue.INC => Except.map after_instruction (unary_operation st)
      | TokenValue.DEC => Except.map after_instruction (unary_operation st)
      | TokenValue.NOT => Except.map after_instruction (unary_operation st)
      | TokenValue.NEG => Except.map after_instruction (unary_operation st)
      | TokenValue.SHL => Except.map after_instruction (bitshift st)
      | TokenValue.SHR => Except.map after_instruction (bitshift st)
      | TokenValue.SAR => Except.map after_instruction (bitshift st)
      | TokenValue.PUSH => Except.map after_instruction (push st)
      | TokenValue.POP => Except.map after_instruction (pop st)
      | TokenValue.CMP => Except.map after_instruction (cmp st)
      | TokenValue.JMP => Except.map after_instruction (jump st)
      | TokenValue.JE => Except.map after_instruction (jump st)
      | TokenValue.JNE => Except.map after_instruction (jump st)
      | TokenValue.JG => Except.map after_instruction (jump st)
      | TokenValue.JGE => Except.map after_instruction (jump st)
      | TokenValue.JL => Except.map after_instruction (jump st)
      | TokenValue.JLE => Except.map after_instruction (jump st)
      | TokenValue.JA => Except.map after_instruction (jump st)
      | TokenValue.JAE => Except.map after_instruction (jump st)
      | TokenValue.JB => Except.map after_instruction (jump st)
      | TokenValue.JBE => Except.map after_instruction (jump st)
      | TokenValue.CALL => Except.map after_instruction (call st)
      | TokenValue.RET => Except.map after_instruction (ret st)
      | TokenValue.ENTER => Except.map after_instruction (enter st)
      | TokenValue.LEAVE => Except.map after_instruction (leave st)
      | TokenValue.INT => Except.ok (StepResult.halted st)
      | _ => Except.error "Unexpected instruction"
    | TokenType.LABEL => Except.ok (after_instruction { st with eip := st.eip + 2 })
    | _ => Except.error "Unexpected token"

/-- The dispatch loop of VM::run with fuel; `none` means the fuel ran
out before the loop broke. -/
def runLoop : Nat → VM → Except String (Option VM)
  | 0, _ => Except.ok none
  | Nat.succ fuel, st =>
    match stepRun st with
    | Except.error msg => Except.error msg
    | Except.ok (StepResult.halted st2) => Except.ok (some st2)
    | Except.ok (StepResult.next st2) => runLoop fuel st2

/-- The branch and call mnemonics singled out by the second
preprocessor pass (vm.rs lines 207-212). -/
def isBranchValue : TokenValue → Bool
  | TokenValue.CALL => true
  | TokenValue.JMP => true
  | TokenValue.JE => true
  | TokenValue.JNE => true
  | TokenValue.JG => true
  | TokenValue.JGE => true
  | TokenValue.JL => true
  | TokenValue.JLE => true
  | TokenValue.JA => true
  | TokenValue.JAE => true
  | TokenValue.JB => true
  | TokenValue.JBE => true
  | _ => false

/-- The in-place rewrite of a label operand at stream index `site`:
the kind becomes IMMEDIATE_DATA and the value the u32 pattern of
`addr - site - 1` (set_int_value stores the i32 as u32). -/
def rewriteToken (t : Token) (addr : Int) (site : Nat) : Token :=
  { t with
    type_ := TokenType.IMMEDIATE_DATA,
    int_value_ := toU32 (addr - site - 1) }

/-- The second pass of VM::preprocess (vm.rs lines 199-233): walk the
stream with the index of the current token and a flag meaning that the
previous token was a branch or call mnemonic; a flagged token must be a
LABEL defined in the label table `idx` and is rewritten in place; any
other token is kept and flags its successor when it is a branch. -/
def resolveLabels (idx : String → Option Int) : Nat → Bool → List Token → Except String (List Token)
  | _, _, [] => Except.ok []
  | i, false, t :: rest =>
    (match resolveLabels idx (i + 1) (isBranchValue t.value_) rest with
     | Except.ok l => Except.ok (t :: l)
     | Except.error msg => Except.error msg)
  | i, true, t :: rest =>
    if t.type_ = TokenType.LABEL then
      match idx t.name_ with
      | some addr =>
        (match resolveLabels idx (i + 1) false rest with
         | Except.ok l => Except.ok (rewriteToken t addr i :: l)
         | Except.error msg => Except.error msg)
      | none => Except.error "Unknown label"
    else Except.error "Expected label"

/-- A generic token (Token::new_token has int value 0 and precedence -1). -/
def mkTok (ty : TokenType) (v : TokenValue) (name : String) : Token :=
  { type_ := ty, value_ := v, name_ := name, int_value_ := 0, symbol_precedence_ := -1 }

/-- An immediate token (Token::new_int_token). -/
def mkImm (n : Nat) : Token :=
  { type_ := TokenType.IMMEDIATE_DATA, value_ := TokenValue.INTEGER_LITERAL,
    name_ := "", int_value_ := n, symbol_precedence_ := -1 }

/-- A symbol token with its precedence (Token::new_symbol_token). -/
def mkSym (v : TokenValue) (name : String) (p : Int) : Token :=
  { type_ := TokenType.SYMBOL, value_ := v, name_ := name, int_value_ := 0,
    symbol_precedence_ := p }

/-- A baseline VM state: empty stream, zeroed registers, flags, stack
and memory, call depth 1 (the initial depth of VM::new). -/
def zeroVM : VM :=
  { text := [], eip := 0, gpr := fun _ => 0,
    flags := { cf := false, zf := false, sf := false, of := false },
    stack := fun _ => 0, memory := fun _ => 0, depth := 1 }

/-- The token stream of the program `int 0x80`: the scanner does not
know the identifier int, so it produces a LABEL token for it. -/
def intProgSt : VM :=
  { zeroVM with text := [mkTok TokenType.LABEL TokenValue.LABEL "int", mkImm 128] }

/-- A state whose current token is an INSTRUCTION token carrying the
INT value (producible by no source program, since the scanner dictionary
lacks the int mnemonic). -/
def intInstrSt : VM :=
  { zeroVM with text := [mkTok TokenType.INSTRUCTION TokenValue.INT "int"] }

/-- The token stream of the instruction `div cl`. -/
def divProgSt : VM :=
  { zeroVM with text := [mkTok TokenType.INSTRUCTION TokenValue.DIV "div",
                         mkTok TokenType.REGISTER TokenValue.CL "cl"] }

/-- The token stream of the address expression `1 + 2 + 4 ]`, as it
stands inside a memory operand when parse_address starts. -/
def addrProgSt : VM :=
  { zeroVM with text := [mkImm 1, mkSym TokenValue.PLUS "+" 10, mkImm 2,
                         mkSym TokenValue.PLUS "+" 10, mkImm 4,
                         mkSym TokenValue.RBRACK "]" (-1)] }

/-- The token stream of the instruction `mov eax, -1`. -/
def movNegProgSt : VM :=
  { zeroVM with text := [mkTok TokenType.INSTRUCTION TokenValue.MOV "mov",
                         mkTok TokenType.REGISTER TokenValue.EAX "eax",
                         mkSym TokenValue.COMMA "," (-1),
                         mkSym TokenValue.MINUS "-" 10, mkImm 1] }

/-- The token stream of the instruction `mov eax, 5`. -/
def movPosProgSt : VM :=
  { zeroVM with text := [mkTok TokenType.INSTRUCTION TokenValue.MOV "mov",
                         mkTok TokenType.REGISTER TokenValue.EAX "eax",
                         mkSym TokenValue.COMMA "," (-1), mkImm 5] }

/-- The token stream of the instruction `ret`. -/
def retProgSt : VM :=
  { zeroVM with text := [mkTok TokenType.INSTRUCTION TokenValue.RET "ret"] }

/-- A two-token stream `jmp L` whose operand the preprocessor rewrites. -/
def jmpProgToks : List Token :=
  [mkTok TokenType.INSTRUCTION TokenValue.JMP "jmp",
   mkTok TokenType.LABEL TokenValue.LABEL "L"]

/-- A label table mapping L to stream index 0. -/
def jmpProgIdx : String → Option Int :=
  fun s => if s = "L" then some 0 else none

/-- The stream of `jmp L` after the second preprocessor pass. -/
def jmpResolvedText : List Token :=
  [mkTok TokenType.INSTRUCTION TokenValue.JMP "jmp",
   rewriteToken (mkTok TokenType.LABEL TokenValue.LABEL "L") 0 1]

/-- A state executing the resolved `jmp L` program at its branch. -/
def jmpResolvedSt : VM := { zeroVM with text := jmpResolvedText }

/-- The state after writing 5 through the AH alias of the zero state. -/
def c2St2 : VM :=
  { zeroVM with
    gpr := updReg zeroVM.gpr RegName.eax (setBytes (zeroVM.gpr RegName.eax) 1 1 5) }

/-- The state after `mov eax, 5` writes the immediate buffer into EAX. -/
def c7St1 : VM :=
  { movPosProgSt with
    gpr := updReg movPosProgSt.gpr RegName.eax
      (setBytes (movPosProgSt.gpr RegName.eax) 0 4 5) }

/-- The signed value of a bit pattern at a given operand width (1, 2 or
4 bytes); spec-side notion used to compare the flag semantics the
specification states against what the code computes. -/
def signedAt (n size : Nat) : Int :=
  ((n % 2 ^ (8 * size) : Nat) : Int)
    - (if 2 ^ (8 * size - 1) ≤ n % 2 ^ (8 * size) then ((2 ^ (8 * size) : Nat) : Int) else 0)

/-- Spec-side definition: the sign bit of a result at the operand width. -/
def x86_sign_bit (n size : Nat) : Bool := Nat.testBit n (8 * size - 1)

/-- Spec-side definition: signed overflow of the subtraction a - b at
the operand width. -/
def x86_sub_signed_overflow (a b size : Nat) : Bool :=
  decide (signedAt a size - signedAt b size < -((2 ^ (8 * size - 1) : Nat) : Int) ∨
          signedAt a size - signedAt b size ≥ ((2 ^ (8 * size - 1) : Nat) : Int))

/-- toI32 is the identity on u32 patterns below 2^31. -/
theorem toI32_small (n : Nat) (h : n < 2147483648) : toI32 n = (n : Int) := by
  unfold toI32 U32MOD
  split <;> omega

/-- Round trip: casting an i32 value to u32 and back is the identity. -/
theorem toI32_toU32_eq (x : Int) (h1 : -2147483648 ≤ x) (h2 : x < 2147483648) :
    toI32 (toU32 x) = x := by
  unfold toI32 toU32 U32MOD
  split <;> omega

/-- set_value never touches the flags, whichever place is written. -/
theorem set_value_flags (st : VM) (p : Place) (v : Nat) (st2 : VM)
    (h : set_value st p v = Except.ok st2) : st2.flags = st.flags := by
  cases p <;> simp only [set_value] at h
  case reg r s sz =>
    split at h
    · rw [Except.ok.injEq] at h; subst h; rfl
    · exact absurd h (by simp)
  case mem a sz =>
    split at h
    · rw [Except.ok.injEq] at h; subst h; rfl
    · exact absurd h (by simp)
  case stk a sz =>
    split at h
    · rw [Except.ok.injEq] at h; subst h; rfl
    · exact absurd h (by simp)
  case imm b sz =>
    rw [Except.ok.injEq] at h; subst h; rfl

/-- In a stream accepted by the second preprocessor pass (with tokens
well-formed in that no token carrying a branch mnemonic value has the
LABEL kind, as the scanner guarantees), the token following a branch or
call mnemonic at relative position j is a LABEL resolved by the table,
and the output stream carries at position j+1 its in-place rewrite
computed at absolute index i+j+1, the mnemonic itself being unchanged. -/
theorem resolveLabels_rewrites (idx : String → Option Int) :
    ∀ (l l2 : List Token) (i : Nat) (fl : Bool),
      resolveLabels idx i fl l = Except.ok l2 →
      (∀ t ∈ l, isBranchValue t.value_ = true → t.type_ ≠ TokenType.LABEL) →
      ∀ (j : Nat) (tj tj1 : Token),
        l.get? j = some tj → l.get? (j + 1) = some tj1 →
        isBranchValue tj.value_ = true →
        ∃ addr : Int, idx tj1.name_ = some addr ∧
          l2.get? (j + 1) = some (rewriteToken tj1 addr (i + j + 1)) ∧
          l2.get? j = some tj := by
  intro l
  induction l with
  | nil =>
    intro l2 i fl h hwf j tj tj1 hj
    simp at hj
  | cons t rest ih =>
    intro l2 i fl h hwf j tj tj1 hj hj1 hbr
    have hwf2 : ∀ u ∈ rest, isBranchValue u.value_ = true → u.type_ ≠ TokenType.LABEL :=
      fun u hu => hwf u (List.mem_cons_of_mem _ hu)
    cases fl with
    | false =>
      simp only [resolveLabels] at h
      cases hrec : resolveLabels idx (i + 1) (isBranchValue t.value_) rest with
      | error msg => rw [hrec] at h; exact absurd h (by simp)
      | ok l3 =>
        rw [hrec] at h
        rw [Except.ok.injEq] at h
        subst h
        cases j with
        | zero =>
          rw [List.get?_cons_zero, Option.some.injEq] at hj
          subst hj
          rw [List.get?_cons_succ] at hj1
          rw [hbr] at hrec
          cases rest with
          | nil => simp at hj1
          | cons u rest2 =>
            rw [List.get?_cons_zero, Option.some.injEq] at hj1
            subst hj1
            simp only [resolveLabels] at hrec
            split at hrec
            case isTrue hlbl =>
              cases hidx : idx u.name_ with
              | none => rw [hidx] at hrec; exact absurd hrec (by simp)
              | some addr =>
                rw [hidx] at hrec
                cases hrec2 : resolveLabels idx (i + 1 + 1) false rest2 with
                | error msg => rw [hrec2] at hrec; exact absurd hrec (by simp)
                | ok l4 =>
                  rw [hrec2] at hrec
                  rw [Except.ok.injEq] at hrec
                  subst hrec
                  exact ⟨addr, rfl, by simp, by simp⟩
            case isFalse hlbl => exact absurd hrec (by simp)
        | succ j2 =>
          rw [List.get?_cons_succ] at hj hj1
          obtain ⟨addr, ha, hb, hc⟩ :=
            ih l3 (i + 1) (isBranchValue t.value_) hrec hwf2 j2 tj tj1 hj hj1 hbr
          refine ⟨addr, ha, ?_, ?_⟩
          · rw [List.get?_cons_succ]
            rw [hb]
            have : i + 1 + j2 + 1 = i + (j2 + 1) + 1 := by omega
            rw [this]
          · rw [List.get?_cons_succ]
            exact hc
    | true =>
      simp only [resolveLabels] at h
      split at h
      case isTrue hlbl =>
        cases hidx : idx t.name_ with
        | none => rw [hidx] at h; exact absurd h (by simp)
        | some addr =>
          rw [hidx] at h
          cases hrec : resolveLabels idx (i + 1) false rest with
          | error msg => rw [hrec] at h; exact absurd h (by simp)
          | ok l3 =>
            rw [hrec] at h
            rw [Except.ok.injEq] at h
            subst h
            cases j with
            | zero =>
              rw [List.get?_cons_zero, Option.some.injEq] at hj
              subst hj
              exact absurd hlbl (hwf t (List.mem_cons_self _ _) hbr)
            | succ j2 =>
              rw [List.get?_cons_succ] at hj hj1
              obtain ⟨addr2, ha, hb, hc⟩ :=
                ih l3 (i + 1) false hrec hwf2 j2 tj tj1 hj hj1 hbr
              refine ⟨addr2, ha, ?_, ?_⟩
              · rw [List.get?_cons_succ]
                rw [hb]
                have : i + 1 + j2 + 1 = i + (j2 + 1) + 1 := by omega
                rw [this]
              · rw [List.get?_cons_succ]
                exact hc
      case isFalse => exact absurd h (by simp)

/-- Claim C1.  The spec says an int instruction, regardless of operand,
halts execution, and the dispatch loop does break at an INSTRUCTION
token with the INT value; but the scanner dictionary has no entry for
the spelling int, so the program `int 0x80` lexes its mnemonic to a
LABEL token, which the dispatch loop silently skips (eip advances by 2)
instead of halting, after which the run fails on the exhausted stream:
no source program can reach the halting arm. -/
theorem c1_int_instruction_does_not_halt :
    identifierToken "int" = (TokenType.LABEL, TokenValue.LABEL) ∧
    stepRun intProgSt = Except.ok (StepResult.next { intProgSt with eip := 2 }) ∧
    runLoop 3 intProgSt = Except.error "token index out of range" ∧
    stepRun intInstrSt = Except.ok (StepResult.halted intInstrSt) :=
  ⟨rfl, rfl, rfl, rfl⟩

/-- Claim C4.  After sub with a = 0x7FFFFFFF, b = 1 at dword size the
code sets OF (it computes the signed overflow of a + b, vm.rs line 700),
although the subtraction a - b does not overflow; and after sub with
a = 0x80, b = 0 at byte size the code leaves SF clear (it signs the full
u32 result) although the sign bit of the result at byte width is set
(and the spec-side OF of that subtraction is also clear while the code
sets it).  ZF, CF and the stored result behave as claimed. -/
theorem c4_sub_flags_diverge :
    binary_operation_core TokenValue.SUB 2147483647 1 4 zeroVM.flags =
      Except.ok (2147483646, { cf := false, zf := false, sf := false, of := true }) ∧
    x86_sub_signed_overflow 2147483647 1 4 = false ∧
    binary_operation_core TokenValue.SUB 128 0 1 zeroVM.flags =
      Except.ok (128, { cf := false, zf := false, sf := false, of := true }) ∧
    x86_sign_bit 128 1 = true ∧
    x86_sub_signed_overflow 128 0 1 = false :=
  ⟨rfl, by decide, rfl, by decide, by decide⟩

/-- Claim C5.  Executing `div cl` is a fatal syntax error: VM::div tests
the current token against the MUL value instead of consuming its own
mnemonic, so parse_destination is applied to the div mnemonic itself and
panics with Unexpected token; no div or idiv instruction can execute
(consequently the dividend, quotient and remainder placements claimed
are unreachable; and the arithmetic arms would also treat div as signed
and put the size-1 remainder in DH rather than AH, see ASM.div). -/
theorem c5_div_is_unreachable :
    div divProgSt = Except.error "Unexpected token" ∧
    stepRun divProgSt = Except.error "Unexpected token" :=
  ⟨rfl, rfl⟩

/-- Claim C6.  The address expression `1 + 2 + 4` evaluates to 5, not 7:
each iteration of the parse_binary_operation loop recomputes the result
from the original left-hand side (vm.rs line 364), so the final PLUS is
applied to 1 and 4 and the accumulated 3 is discarded.  The standard
left-associative wrap-around value of the same expression is 7. -/
theorem c6_address_chain_eval :
    parse_address addrProgSt 100 0 = Except.ok (5, 5) ∧
    add32 (add32 1 2) 4 = 7 :=
  ⟨rfl, rfl⟩

/-- Claim C8.  inc on a byte operand of value 255 with all flags clear
sets CF (the shared helper set_cf_and_of raises CF for sub-dword sizes
whenever the full u32 result leaves the unsigned range), although the
claim says inc leaves CF unchanged; and not on a dword operand of value
0 raises SF (unary_operation calls set_sf_and_zf for every unary
mnemonic), although the claim says not leaves all four flags unchanged. -/
theorem c8_inc_and_not_touch_flags :
    unary_operation_core TokenValue.INC 255 1 zeroVM.flags =
      Except.ok (256, { cf := true, zf := false, sf := false, of := true }) ∧
    unary_operation_core TokenValue.NOT 0 4 zeroVM.flags =
      Except.ok (4294967295, { cf := false, zf := false, sf := true, of := false }) :=
  ⟨rfl, rfl⟩

/-- Claim C9.  After shr of the byte operand 2 by count 1 the code sets
CF (it reads bit 0 of the shifted result, vm.rs line 1010, which is bit
count of the operand), although the last bit shifted out, bit
count - 1 = 0 of the operand 2, is clear; and after shl of the byte
operand 1 by count 7 the code leaves SF clear although the sign bit of
the result 128 at byte width is set (SF and ZF are taken from the full
u32 result, not the result within the operand size).  The shl CF itself
matches the claim. -/
theorem c9_shr_cf_off_by_one :
    bitshift_core TokenValue.SHR 2 1 1 zeroVM.flags =
      (1, { cf := true, zf := false, sf := false, of := false }) ∧
    Nat.testBit 2 0 = false ∧
    bitshift_core TokenValue.SHL 1 7 1 zeroVM.flags =
      (128, { cf := false, zf := false, sf := false, of := true }) ∧
    x86_sign_bit 128 1 = true :=
  ⟨rfl, by decide, rfl, by decide⟩

/-- Claim C2.  Writing a value through any sub-register place of the
alias table (set_value on the triple produced by parse_register) leaves
every other register, the flags, the stack, the memory, the stream, eip
and the call depth unchanged, and touches only the bytes of the alias:
a low-byte write (offset 0, size 1) keeps bits 8-31, a high-byte write
(offset 1, size 1) keeps bits 0-7 and 16-31, a word write (offset 0,
size 2) keeps bits 16-31, and a dword write sets all 32 bits. -/
theorem c2_subregister_write (tv : TokenValue) (st : VM) (r : RegName)
    (s sz v : Nat) (st2 : VM)
    (halias : parse_register_value tv = some (r, s, sz))
    (hreg : st.gpr r < U32MOD)
    (hw : set_value st (Place.reg r s sz) v = Except.ok st2) :
    (∀ r2, r2 ≠ r → st2.gpr r2 = st.gpr r2) ∧
    st2.flags = st.flags ∧ st2.stack = st.stack ∧ st2.memory = st.memory ∧
    st2.text = st.text ∧ st2.eip = st.eip ∧ st2.depth = st.depth ∧
    (s = 0 ∧ sz = 1 →
      st2.gpr r % 256 = v % 256 ∧ st2.gpr r / 256 = st.gpr r / 256) ∧
    (s = 1 ∧ sz = 1 →
      st2.gpr r % 256 = st.gpr r % 256 ∧
      st2.gpr r / 256 % 256 = v % 256 ∧
      st2.gpr r / 65536 = st.gpr r / 65536) ∧
    (s = 0 ∧ sz = 2 →
      st2.gpr r % 65536 = v % 65536 ∧ st2.gpr r / 65536 = st.gpr r / 65536) ∧
    (s = 0 ∧ sz = 4 → st2.gpr r = v % U32MOD) := by
  clear halias
  simp only [set_value] at hw
  split at hw
  case isFalse => exact absurd hw (by simp)
  case isTrue =>
    rw [Except.ok.injEq] at hw
    subst hw
    refine ⟨?_, rfl, rfl, rfl, rfl, rfl, rfl, ?_, ?_, ?_, ?_⟩
    · intro r2 hne
      simp [updReg, hne]
    · rintro ⟨hs, hsz⟩
      subst hs; subst hsz
      simp only [updReg, if_pos rfl, setBytes]
      norm_num
      omega
    · rintro ⟨hs, hsz⟩
      subst hs; subst hsz
      simp only [updReg, if_pos rfl, setBytes]
      norm_num
      omega
    · rintro ⟨hs, hsz⟩
      subst hs; subst hsz
      simp only [updReg, if_pos rfl, setBytes]
      norm_num
      omega
    · rintro ⟨hs, hsz⟩
      subst hs; subst hsz
      simp only [updReg, if_pos rfl, setBytes]
      norm_num
      simp only [U32MOD] at hreg ⊢
      omega

/-- Witness for c2_subregister_write: writing 5 through AH on the zero
state leaves EBX, the flags and the low and high parts of EAX as
predicted. -/
theorem c2_subregister_write_witness :
    c2St2.gpr RegName.ebx = zeroVM.gpr RegName.ebx ∧
    c2St2.flags = zeroVM.flags ∧
    c2St2.gpr RegName.eax % 256 = zeroVM.gpr RegName.eax % 256 ∧
    c2St2.gpr RegName.eax / 256 % 256 = 5 % 256 ∧
    c2St2.gpr RegName.eax / 65536 = zeroVM.gpr RegName.eax / 65536 := by
  have h := c2_subregister_write TokenValue.AH zeroVM RegName.eax 1 1 5 c2St2
    rfl (by norm_num [zeroVM, U32MOD]) rfl
  obtain ⟨hframe, hflags, -, -, -, -, -, -, hhigh, -, -⟩ := h
  obtain ⟨h1, h2, h3⟩ := hhigh ⟨rfl, rfl⟩
  exact ⟨hframe RegName.ebx (by simp), hflags, h1, h2, h3⟩

/-- Claim C10.  When the call depth is 1, executing ret advances eip by
one (past the mnemonic), reads nothing from the stack, changes no
register and no memory, and only sets the depth to 0, upon which the
dispatch loop terminates; so the final ret of the entry routine ends
execution regardless of the stack contents. -/
theorem c10_ret_at_depth_one (st : VM) (t : Token)
    (ht : tokenAt st st.eip = Except.ok t)
    (hty : t.type_ = TokenType.INSTRUCTION)
    (hv : t.value_ = TokenValue.RET)
    (hd : st.depth = 1) :
    stepRun st = Except.ok (StepResult.halted { st with eip := st.eip + 1, depth := 0 }) := by
  obtain ⟨ty, v, nm, iv, pr⟩ := t
  dsimp only at hty hv
  subst hty; subst hv
  unfold stepRun
  rw [ht]
  show Except.map after_instruction (ret st) = _
  unfold ret
  rw [hd]
  norm_num
  simp [Except.map, after_instruction, sub8]

/-- Witness for c10_ret_at_depth_one: one ret at depth 1 halts the
dispatch loop with only eip and depth changed. -/
theorem c10_ret_at_depth_one_witness :
    stepRun retProgSt = Except.ok (StepResult.halted { retProgSt with eip := 1, depth := 0 }) :=
  c10_ret_at_depth_one retProgSt
    (mkTok TokenType.INSTRUCTION TokenValue.RET "ret") rfl rfl rfl rfl

/-- Claim C3.  For every program accepted by the second preprocessor
pass, the label operand of a branch or call at stream index `site` is
rewritten to an IMMEDIATE_DATA token of value target - site - 1 (as a
u32 pattern), and executing the branch (the taken case) from the
mnemonic at site - 1 sets EIP exactly to the target index of the label. -/
theorem c3_preprocess_displacements (idx : String → Option Int)
    (text text2 : List Token) (site : Nat) (tbr top : Token) (st : VM)
    (hwf : ∀ t ∈ text, isBranchValue t.value_ = true → t.type_ ≠ TokenType.LABEL)
    (hok : resolveLabels idx 0 false text = Except.ok text2)
    (hpos : 1 ≤ site) (hsite : site < 2147483647)
    (hbr_at : text.get? (site - 1) = some tbr)
    (hop_at : text.get? site = some top)
    (hbr : isBranchValue tbr.value_ = true)
    (hidx : ∀ s a, idx s = some a → 0 ≤ a ∧ a < 2147483648)
    (htext : st.text = text2) (heip : st.eip = site - 1)
    (htaken : branch_taken tbr.value_ st.flags = true) :
    ∃ addr : Int, idx top.name_ = some addr ∧
      text2.get? site = some (rewriteToken top addr site) ∧
      jump st = Except.ok { st with eip := addr.toNat } := by
  obtain ⟨j, rfl⟩ : ∃ j, site = j + 1 := ⟨site - 1, by omega⟩
  have heq1 : st.eip = j := by omega
  have hj : text.get? j = some tbr := by
    rwa [show j + 1 - 1 = j from by omega] at hbr_at
  obtain ⟨addr, ha, hb, hc⟩ :=
    resolveLabels_rewrites idx text text2 0 false hok hwf j tbr top hj hop_at hbr
  rw [Nat.zero_add] at hb
  obtain ⟨haddr0, haddr1⟩ := hidx _ _ ha
  refine ⟨addr, ha, hb, ?_⟩
  have htok0 : tokenAt st st.eip = Except.ok tbr := by
    unfold tokenAt; rw [htext, heq1, hc]
  have htok1 : tokenAt st (st.eip + 1) = Except.ok (rewriteToken top addr (j + 1)) := by
    unfold tokenAt; rw [htext, heq1, hb]
  have hexp : expect_token_type st (st.eip + 1) TokenType.IMMEDIATE_DATA false =
      Except.ok (st.eip + 1) := by
    unfold expect_token_type
    rw [htok1]; dsimp only [rewriteToken]
    rw [if_pos rfl]
    rfl
  have hgiv : get_int_value (rewriteToken top addr (j + 1)) =
      Except.ok (toU32 (addr - (↑(j + 1) : Int) - 1)) := by
    unfold get_int_value rewriteToken
    rw [if_pos rfl]
  have hdisp : toI32 (toU32 (addr - (↑(j + 1) : Int) - 1)) = addr - (↑(j + 1) : Int) - 1 :=
    toI32_toU32_eq _ (by omega) (by omega)
  have hval : wrapI32 (toI32 (st.eip + 1 + 1) + (addr - (↑(j + 1) : Int) - 1)) = addr := by
    rw [heq1]
    rw [toI32_small (j + 1 + 1) (by omega)]
    rw [show ((j + 1 + 1 : Nat) : Int) + (addr - (↑(j + 1) : Int) - 1) = addr by push_cast; ring]
    exact toI32_toU32_eq addr (by omega) (by omega)
  unfold jump
  rw [htok0]; dsimp only
  rw [hexp]; dsimp only
  rw [htok1]; dsimp only
  rw [hgiv]; dsimp only
  rw [htaken]
  rw [if_pos rfl]
  rw [hdisp]
  unfold go_from_here
  rw [hval]
  dsimp only
  rw [if_pos haddr0]

/-- Witness for c3_preprocess_displacements: in the two-token program
`jmp L` with L recorded at index 0, the operand becomes the u32 pattern
of -2 and the jump lands back on index 0. -/
theorem c3_preprocess_displacements_witness :
    jmpProgIdx "L" = some 0 ∧
    jmpResolvedText.get? 1 =
      some (rewriteToken (mkTok TokenType.LABEL TokenValue.LABEL "L") 0 1) ∧
    jump jmpResolvedSt = Except.ok { jmpResolvedSt with eip := 0 } := by
  obtain ⟨addr, ha, hb, hj⟩ :=
    c3_preprocess_displacements jmpProgIdx jmpProgToks jmpResolvedText 1
      (mkTok TokenType.INSTRUCTION TokenValue.JMP "jmp")
      (mkTok TokenType.LABEL TokenValue.LABEL "L") jmpResolvedSt
      (by decide) rfl (by norm_num) (by norm_num) rfl rfl rfl
      (by
        intro s a h
        unfold jmpProgIdx at h
        split at h
        · rw [Option.some.injEq] at h
          constructor <;> omega
        · exact absurd h (by simp))
      rfl rfl rfl
  have haddr : addr = 0 := by
    simp [jmpProgIdx, mkTok] at ha
    omega
  subst haddr
  exact ⟨rfl, hb, hj⟩

/-- Claim C7 counterexample.  For `mov eax, -1` the inferred immediate
size is 1 byte, so the zero-extension the claim states would put
255 = getBytes (toU32 (-1)) 0 1 into EAX; the code instead copies the
whole 4-byte twos-complement buffer and EAX receives 0xFFFFFFFF. -/
theorem c7_mov_zero_extension_counterexample :
    Except.map (fun st => st.gpr RegName.eax) (mov movNegProgSt) =
      Except.ok 4294967295 ∧
    getBytes (toU32 (-1)) 0 1 = 255 ∧ (4294967295 : Nat) ≠ 255 :=
  ⟨rfl, by decide, by decide⟩

/-- Claim C7 (amended).  For `mov dst, src`: when src is an immediate
whose inferred size is at most dst.size, the destination receives the
full 32-bit twos-complement encoding of the immediate (its low
dst.size bytes are written), which coincides with zero-extension
exactly when the immediate is non-negative; when src is a register or
memory operand, dst.size must equal src.size exactly and the
destination receives get_value(src); greater immediate size or unequal
operand sizes are fatal errors; in every case no flag changes. -/
theorem c7_mov_amended (st : VM) (dst : Place) (e1 e2 : Nat)
    (hdst : parse_destination st (st.eip + 1) = Except.ok (dst, e1))
    (hcomma : expect_token_value st e1 TokenValue.COMMA true = Except.ok e2) :
    (∀ t buf sz e3 st1,
      tokenAt st e2 = Except.ok t →
      (t.type_ = TokenType.IMMEDIATE_DATA ∨ t.value_ = TokenValue.MINUS) →
      parse_immediate_data st e2 = Except.ok ((buf, sz), e3) →
      sz ≤ dst.size →
      set_value st dst buf = Except.ok st1 →
      mov st = Except.ok { st1 with eip := e3 } ∧ st1.flags = st.flags) ∧
    (∀ t src e3 v st1,
      tokenAt st e2 = Except.ok t →
      ¬(t.type_ = TokenType.IMMEDIATE_DATA ∨ t.value_ = TokenValue.MINUS) →
      parse_source st e2 = Except.ok (src, e3) →
      dst.size = src.size →
      get_value st src = Except.ok v →
      set_value st dst v = Except.ok st1 →
      mov st = Except.ok { st1 with eip := e3 } ∧ st1.flags = st.flags) ∧
    (∀ t buf sz e3,
      tokenAt st e2 = Except.ok t →
      (t.type_ = TokenType.IMMEDIATE_DATA ∨ t.value_ = TokenValue.MINUS) →
      parse_immediate_data st e2 = Except.ok ((buf, sz), e3) →
      dst.size < sz →
      mov st = Except.error "destination smaller than source") ∧
    (∀ t src e3,
      tokenAt st e2 = Except.ok t →
      ¬(t.type_ = TokenType.IMMEDIATE_DATA ∨ t.value_ = TokenValue.MINUS) →
      parse_source st e2 = Except.ok (src, e3) →
      dst.size ≠ src.size →
      mov st = Except.error "destination size differs from source size") := by
  refine ⟨?_, ?_, ?_, ?_⟩
  · intro t buf sz e3 st1 ht hkind himm hsz hw
    unfold mov
    rw [hdst]; dsimp only
    rw [hcomma]; dsimp only
    rw [ht]; dsimp only
    rw [if_pos hkind, himm]; dsimp only
    rw [if_neg (by omega), hw]
    exact ⟨rfl, set_value_flags st dst buf st1 hw⟩
  · intro t src e3 v st1 ht hkind hsrc hsz hv hw
    unfold mov
    rw [hdst]; dsimp only
    rw [hcomma]; dsimp only
    rw [ht]; dsimp only
    rw [if_neg hkind, hsrc]; dsimp only
    rw [if_neg (by omega), hv]; dsimp only
    rw [hw]
    exact ⟨rfl, set_value_flags st dst v st1 hw⟩
  · intro t buf sz e3 ht hkind himm hsz
    unfold mov
    rw [hdst]; dsimp only
    rw [hcomma]; dsimp only
    rw [ht]; dsimp only
    rw [if_pos hkind, himm]; dsimp only
    rw [if_pos hsz]
  · intro t src e3 ht hkind hsrc hsz
    unfold mov
    rw [hdst]; dsimp only
    rw [hcomma]; dsimp only
    rw [ht]; dsimp only
    rw [if_neg hkind, hsrc]; dsimp only
    rw [if_pos hsz]

/-- Witness for c7_mov_amended: `mov eax, 5` writes the 4-byte buffer
holding 5 into EAX and leaves the flags unchanged. -/
theorem c7_mov_amended_witness :
    mov movPosProgSt = Except.ok { c7St1 with eip := 4 } ∧
    c7St1.flags = movPosProgSt.flags :=
  (c7_mov_amended movPosProgSt (Place.reg RegName.eax 0 4) 2 3 rfl rfl).1
    (mkImm 5) 5 1 4 c7St1 rfl (Or.inl rfl) rfl (by decide) rfl

end ASM
